import Mathlib

/-!
Shallow embedding of litJSX (`src/litJSX.js`), a library of JSX-like tagged
template literals.

The embedding translates the source functions of `src/litJSX.js` into Lean:

* JavaScript runtime values relevant to the render pipeline are modelled by
  `JSVal`: strings, opaque non-string objects, `undefined`, and promises.
  A promise is modelled as a settled value together with an absolute
  resolution time (a natural number); `Promise.all` therefore resolves at the
  maximum of its constituent resolution times (the awaited results overlap in
  time), while sequential awaiting would sum the times.
* JavaScript objects used as property bags are modelled as association lists
  in insertion order; `Object.assign` appends the later bindings and lookup
  takes the rightmost (most recently assigned) binding.
* The positional tree produced by `parse` (a JS value that is a string, a
  number, or a `[name, attributes, children]` array) is the inductive `Data`;
  the result of `transformText`, which may also be a spliceable array of
  strings and numbers, is the inductive `Transformed`.
* Exceptions thrown during parsing/transforming are modelled with
  `Except String`.
-/

set_option linter.unusedVariables false

namespace LitJSX

/-- A JavaScript runtime value, as far as the render pipeline observes it:
a string, an opaque non-string object (tagged by a number so distinct objects
can be told apart), `undefined`, or a promise.  `promise t v` is a promise
that resolves at absolute time `t` with settled value `v`. -/
inductive JSVal where
| str : String → JSVal
| obj : Nat → JSVal
| undefined : JSVal
| promise : Nat → JSVal → JSVal
deriving DecidableEq, Repr

/-- `result instanceof Promise` -/
def isPromise : JSVal → Bool
| .promise _ _ => true
| _ => false

/-- `typeof v === "string"` -/
def isStringVal : JSVal → Bool
| .str _ => true
| _ => false

/-- The value a promise settles to; a non-promise is already settled. -/
def settledValue : JSVal → JSVal
| .promise _ v => v
| v => v

/-- The absolute time at which a value is available: a promise resolves at
its recorded time, and a plain value is available immediately. -/
def resolveTime : JSVal → Nat
| .promise t _ => t
| _ => 0

/-- The time at which every value of the list has settled; because all the
promises are pending concurrently, this is the maximum (not the sum) of the
individual resolution times. -/
def maxResolveTime (lst : List JSVal) : Nat :=
  lst.foldl (fun a v => max a (resolveTime v)) 0

/-- String coercion as performed by template literals: `undefined` prints as
`undefined`, objects as `[object Object]`, promises as `[object Promise]`. -/
def jsTemplate : JSVal → String
| .str s => s
| .obj _ => "[object Object]"
| .undefined => "undefined"
| .promise _ _ => "[object Promise]"

/-- String coercion as performed by `Array.prototype.join`, which renders
`undefined` (and `null`) as the empty string, unlike template literals. -/
def joinCoerce : JSVal → String
| .undefined => ""
| v => jsTemplate v

/-- `array.join(\x27\x27)` on a list of JS values. -/
def jsJoin (lst : List JSVal) : String :=
  (lst.map joinCoerce).foldl (fun a s => a ++ s) ""

/-- `p.then(f)` for a promise `p`: the callback runs once `p` settles; when
the callback itself returns a promise, the result adopts that inner
resolution time as well (promise flattening).  In the embedded code `then`
is only ever invoked on values known to be promises. -/
def jsThen (p : JSVal) (f : JSVal → JSVal) : JSVal :=
  match p with
  | .promise t v =>
    match f v with
    | .promise u w => .promise (max t u) w
    | w => .promise t w
  | v => f v

/-- `Promise.all(lst).then(f)`: waits for every element of `lst` to settle —
concurrently, so the wait ends at `maxResolveTime lst` — then invokes `f` on
the settled values arranged by original position, flattening a promise
returned by `f`. -/
def promiseAllThen (lst : List JSVal) (f : List JSVal → JSVal) : JSVal :=
  let t := maxResolveTime lst
  match f (lst.map settledValue) with
  | .promise u w => .promise (max t u) w
  | w => .promise t w

/-- A JavaScript property bag (object literal), in insertion order. -/
abbrev Props := List (String × JSVal)

/-- A component function: receives a props object, returns a JS value
(possibly a promise). -/
abbrev ComponentFn := Props → JSVal

/-- Property lookup on an association-list object: the rightmost (most
recently assigned) binding wins, `none` models an absent property
(`undefined`). -/
def jsRecGet {α : Type} (l : List (String × α)) (k : String) : Option α :=
  l.foldl (fun acc p => if p.1 == k then some p.2 else acc) none

/-- `props[k]`, with `undefined` for an absent property. -/
def jsGet (props : Props) (k : String) : JSVal :=
  (jsRecGet props k).getD .undefined

/-- `Object.assign({}, a, b)`: all bindings of `a` then all bindings of `b`;
with rightmost-wins lookup, a binding of `b` overrides a same-named binding
of `a`. -/
def objAssign {α : Type} (a b : List (String × α)) : List (String × α) :=
  a ++ b

/-- The name slot of a structured node: a lowercase tag name string, a
component function, or the JS `undefined` that arises when a class-map
lookup for a built-in transform finds no entry. -/
inductive Name where
| tag : String → Name
| component : ComponentFn → Name
| jsUndefined : Name

mutual

/-- A positional-tree node, the array representation produced by `parse`:
a literal string, a substitution index, or a `[name, attributes, children]`
triple.  Attribute values are stored exactly as `transformText` returned
them (a string, an index, or a spliceable array). -/
inductive Data where
| str : String → Data
| idx : Nat → Data
| node : Name → List (String × Transformed) → List Data → Data

/-- The result of `transformText`: either a single positional-tree value or
an array of parts (to be spliced into a children list, or kept as a
multi-part attribute value). -/
inductive Transformed where
| datum : Data → Transformed
| seqr : List Data → Transformed

end

/-- The pluggable render operations (`renderers` in the source): `value` for
leaves, `element` for plain elements, `children` for combining a list of
already-rendered children.  In the source `renderers.children` is invoked
with the children array (the extra `substitutions` argument passed in the
asynchronous branch is ignored by the text combiner, the only combiner the
repository defines, so `children` is modelled on the array alone).
`element` receives the name slot as the JS value the source passes
(a string for tag names). -/
structure Renderers where
  value : JSVal → JSVal
  element : JSVal → Props → JSVal → JSVal
  children : List JSVal → JSVal

/-- `renderComponent`: build the props object by assigning the resolved
attributes and then a `children` property, and invoke the component. -/
def renderComponent (component : ComponentFn) (attributes : Props) (children : JSVal) : JSVal :=
  component (objAssign attributes [(("children"), children)])

/-- `substitutions[data]` for a numeric index: out-of-range access yields
`undefined`. -/
def jsIndex (substitutions : List JSVal) (n : Nat) : JSVal :=
  substitutions.getD n .undefined

/-- The second half of `renderChildren`, operating on the already-rendered
children array: if any rendered result is a promise, wait for all of them
(`Promise.all(rendered).then(...)`) before invoking the `children` combiner;
otherwise invoke the combiner immediately. -/
def renderChildrenFromRendered (rendered : List JSVal) (renderers : Renderers) : JSVal :=
  if rendered.any isPromise then
    promiseAllThen rendered renderers.children
  else
    renderers.children rendered

/-- `renderValueToText`: the identity. -/
def renderValueToText (value : JSVal) : JSVal :=
  value

/-- `renderChildrenToText`: join the rendered children into one string. -/
def renderChildrenToText (children : List JSVal) : JSVal :=
  .str (jsJoin children)

/-- The serialized attributes of `renderElementToText`:
one leading-space `name="value"` fragment per attribute, joined. -/
def attributeText (attributes : Props) : String :=
  (attributes.map (fun p => " " ++ p.1 ++ "=\"" ++ jsTemplate p.2 ++ "\"")).foldl
    (fun a s => a ++ s) ""

/-- `renderElementToText`: bracketed tag syntax around the children. -/
def renderElementToText (tag : JSVal) (attributes : Props) (children : JSVal) : JSVal :=
  .str ("<" ++ jsTemplate tag ++ attributeText attributes ++ ">"
    ++ jsTemplate children ++ "</" ++ jsTemplate tag ++ ">")

/-- The text renderers handed to `render` by `renderToText`. -/
def textRenderers : Renderers :=
  { value := renderValueToText
    element := renderElementToText
    children := renderChildrenToText }

mutual

/-- `render(data, substitutions, renderers)`: a string leaf goes through
`renderers.value`; a numeric leaf resolves `substitutions[n]` and goes
through `renderers.value`; a structured node resolves its attributes,
renders its children (waiting for them when they are asynchronous), and
combines with `renderComponent` for component names or `renderers.element`
for the rest. -/
def render (data : Data) (substitutions : List JSVal) (renderers : Renderers) : JSVal :=
  match data with
  | .str s => renderers.value (.str s)
  | .idx n => renderers.value (jsIndex substitutions n)
  | .node nameData attributesData childrenData =>
    let resolvedAttributes := resolveAttributes attributesData substitutions
    let topRenderer : JSVal → JSVal := fun children =>
      match nameData with
      | .component f => renderComponent f resolvedAttributes children
      | .tag t => renderers.element (.str t) resolvedAttributes children
      | .jsUndefined => renderers.element .undefined resolvedAttributes children
    let awaitedChildren :=
      renderChildrenFromRendered (renderList childrenData substitutions renderers) renderers
    if isPromise awaitedChildren then
      jsThen awaitedChildren topRenderer
    else
      topRenderer awaitedChildren
termination_by sizeOf data
decreasing_by all_goals (simp_wf <;> omega)

/-- `childrenData.map(child => render(child, substitutions, renderers))`:
each child is rendered independently, and the results keep the document
order of the children. -/
def renderList (childrenData : List Data) (substitutions : List JSVal) (renderers : Renderers) : List JSVal :=
  match childrenData with
  | [] => []
  | child :: rest =>
    render child substitutions renderers :: renderList rest substitutions renderers
termination_by sizeOf childrenData
decreasing_by all_goals (simp_wf <;> omega)

/-- `resolveAttributes(attributesData, substitutions)`: a multi-part (array)
attribute value renders each part through the text-rendering path and joins
the results into one string; a single-part value renders directly through
the text-rendering path. -/
def resolveAttributes (attributesData : List (String × Transformed)) (substitutions : List JSVal) : Props :=
  match attributesData with
  | [] => []
  | (name, value) :: rest =>
    let resolved :=
      match value with
      | .seqr items => JSVal.str (jsJoin (renderTextList items substitutions))
      | .datum d => render d substitutions textRenderers
    (name, resolved) :: resolveAttributes rest substitutions
termination_by sizeOf attributesData
decreasing_by all_goals (simp_wf <;> omega)

/-- `items.map(item => renderToText(item, substitutions))` (the text
renderers are `textRenderers`). -/
def renderTextList (items : List Data) (substitutions : List JSVal) : List JSVal :=
  match items with
  | [] => []
  | item :: rest =>
    render item substitutions textRenderers :: renderTextList rest substitutions
termination_by sizeOf items
decreasing_by all_goals (simp_wf <;> omega)

end

/-- `renderChildren(childrenData, substitutions, renderers)`: render every
child, then combine — immediately when every result is synchronous, after a
concurrent wait for all of them when any result is a promise. -/
def renderChildren (childrenData : List Data) (substitutions : List JSVal) (renderers : Renderers) : JSVal :=
  renderChildrenFromRendered (renderList childrenData substitutions renderers) renderers

/-- `renderToText(data, substitutions)`. -/
def renderToText (data : Data) (substitutions : List JSVal) : JSVal :=
  render data substitutions textRenderers

/-! ### Marker codec (`collapseWhitespace`, `transformText`) -/

/-- A whitespace character, approximating the `\s` character class of the
regular expressions used by `collapseWhitespace`. -/
def jsIsSpace (c : Char) : Bool :=
  c.isWhitespace

/-- `string.trim()`: drop leading and trailing whitespace. -/
def jsTrim (s : String) : String :=
  String.mk (((s.data.dropWhile jsIsSpace).reverse.dropWhile jsIsSpace).reverse)

/-- `collapseWhitespace(string)`: condense any leading or trailing
whitespace to a single space; a whole-whitespace string becomes a single
space. -/
def collapseWhitespace (string : String) : String :=
  let hasLeadingSpace :=
    match string.data with
    | [] => false
    | c :: _ => jsIsSpace c
  let hasTrailingSpace :=
    match string.data.getLast? with
    | some c => jsIsSpace c
    | none => false
  let trimmed := jsTrim string
  if trimmed.data.length == 0 then
    " "
  else
    (if hasLeadingSpace then " " else "") ++ trimmed
      ++ (if hasTrailingSpace then " " else "")

/-- The maximal (greedy) digit run at the head of a character list, with
the remaining characters. -/
def takeDigits : List Char → List Char × List Char
| [] => ([], [])
| c :: cs =>
  if c.isDigit then
    let p := takeDigits cs
    (c :: p.1, p.2)
  else
    ([], c :: cs)

/-- Match the marker pattern `\[\[\[(\d+)\]\]\]` at the head of a character
list: three opening brackets, a nonempty greedy digit run, three closing
brackets.  On success, return the captured digit group and the remaining
characters. -/
def matchMarker (l : List Char) : Option (String × List Char) :=
  match l with
  | '[' :: '[' :: '[' :: rest =>
    if (takeDigits rest).1.isEmpty then
      none
    else
      match (takeDigits rest).2 with
      | ']' :: ']' :: ']' :: rest2 => some (String.mk (takeDigits rest).1, rest2)
      | _ => none
  | _ => none

/-- One part of the result of splitting a string on the marker regex: a
literal segment (an even position of the split array) or a captured digit
group (an odd position). -/
inductive SplitPart where
| lit : String → SplitPart
| capture : String → SplitPart
deriving DecidableEq, Repr

theorem takeDigits_append (l : List Char) :
    (takeDigits l).1 ++ (takeDigits l).2 = l := by
  induction l with
  | nil => simp [takeDigits]
  | cons c cs ih =>
    by_cases h : c.isDigit <;> simp [takeDigits, h, ih]

theorem matchMarker_length {l rest : List Char} {ds : String}
    (h : matchMarker l = some (ds, rest)) : rest.length < l.length := by
  unfold matchMarker at h
  split at h
  case _ r =>
    split at h
    · exact absurd h (by simp)
    · split at h
      case _ rest2 heq =>
        have h2 : rest2 = rest := by
          simpa using congrArg (fun o => o.map Prod.snd) h
        subst h2
        have hr : (takeDigits r).1 ++ (takeDigits r).2 = r := takeDigits_append r
        have hlen : (takeDigits r).2.length ≤ r.length := by
          have := congrArg List.length hr
          simp [List.length_append] at this
          omega
        rw [heq] at hlen
        simp at hlen ⊢
        omega
      case _ => exact absurd h (by simp)
  case _ => exact absurd h (by simp)

/-- The worker of the marker split: scan left to right, accumulating the
current literal segment (in reverse); each marker occurrence emits the
pending literal and the captured digit group.  This models
`trimmed.split(markerRegex)` for the single-capture-group marker regex,
whose result alternates literal segments and captured groups.  The `fuel`
argument makes the recursion structural; `matchMarker` always consumes
characters, so any `fuel ≥ l.length` computes the full scan
(`splitAux_fuel_sufficient`). -/
def splitAux (fuel : Nat) (acc : List Char) (l : List Char) : List SplitPart :=
  match fuel, l with
  | _, [] => [.lit (String.mk acc.reverse)]
  | 0, _ => [.lit (String.mk (acc.reverse ++ l))]
  | fuel + 1, c :: cs =>
    match matchMarker (c :: cs) with
    | some p => .lit (String.mk acc.reverse) :: .capture p.1 :: splitAux fuel [] p.2
    | none => splitAux fuel (c :: acc) cs

/-- Any two sufficient fuels compute the same split, so the fuel argument
of `splitAux` is invisible at and above `l.length`. -/
theorem splitAux_fuel_sufficient (fuel fuel' : Nat) (acc l : List Char)
    (h : l.length ≤ fuel) (h' : l.length ≤ fuel') :
    splitAux fuel acc l = splitAux fuel' acc l := by
  induction fuel using Nat.strong_induction_on generalizing fuel' acc l with
  | _ fuel ih =>
    cases l with
    | nil => cases fuel <;> cases fuel' <;> rfl
    | cons c cs =>
      cases fuel with
      | zero => simp at h
      | succ f =>
        cases fuel' with
        | zero => simp at h'
        | succ f' =>
          simp only [splitAux]
          cases hm : matchMarker (c :: cs) with
          | some p =>
            have hlt := matchMarker_length hm
            simp only [List.length_cons] at h h' hlt
            have := ih f (by omega) f' [] p.2 (by omega) (by omega)
            simp [this]
          | none =>
            simp only [List.length_cons] at h h'
            exact ih f (by omega) f' (c :: acc) cs (by omega) (by omega)

/-- `text.split(/\[\[\[(\d+)\]\]\]/)`. -/
def splitMarkers (text : String) : List SplitPart :=
  splitAux text.data.length [] text.data

/-- `parseInt` on a captured digit group. -/
def jsParseInt (s : String) : Nat :=
  s.data.foldl (fun a c => a * 10 + (c.toNat - '0'.toNat)) 0

/-- `transformText(text)`: collapse whitespace, split on markers; with no
marker the collapsed literal is returned whole; otherwise literal segments
stay strings and captured groups become indices, empty literal segments are
filtered out, and a lone surviving index is returned bare rather than as a
one-element array. -/
def transformText (text : String) : Transformed :=
  let trimmed := collapseWhitespace text
  let parts := splitMarkers trimmed
  if parts.length == 1 then
    .datum (.str trimmed)
  else
    let transformed : List Data := parts.map (fun part =>
      match part with
      | .lit s => .str s
      | .capture ds => .idx (jsParseInt ds))
    let stripped := transformed.filter (fun item =>
      match item with
      | .str s => s.length > 0
      | _ => true)
    match stripped with
    | [.idx n] => .datum (.idx n)
    | l => .seqr l

/-! ### The generic parsed node tree and the tree transformer -/

/-- A node of the generic tree produced by the external `DOMParser`
(`xmldom`): a text node (nodeType 3) with its text content, an element
(nodeType 1) with local name, attributes and child nodes, a processing
instruction (nodeType 7) with target and data, or a document type
(nodeType 10) with its name. -/
inductive DOMNode where
| text : String → DOMNode
| element : String → List (String × String) → List DOMNode → DOMNode
| processingInstruction : String → String → DOMNode
| documentType : String → DOMNode
deriving Repr

/-- `node.childNodes`. -/
def childNodes : DOMNode → List DOMNode
| .element _ _ cs => cs
| _ => []

/-- `node.nodeName`. -/
def nodeName : DOMNode → String
| .text _ => "#text"
| .element n _ _ => n
| .processingInstruction target _ => target
| .documentType n => n

mutual

/-- `node.textContent`: the concatenated text of the node. -/
def textContent : DOMNode → String
| .text s => s
| .element _ _ cs => textContentList cs
| .processingInstruction _ data => data
| .documentType _ => ""

/-- The concatenated text content of a node list. -/
def textContentList : List DOMNode → String
| [] => ""
| c :: cs => textContent c ++ textContentList cs

end

/-- `isErrorNode` applied to a possibly-absent node: present with node name
`parsererror`. -/
def isErrorNode (node : Option DOMNode) : Bool :=
  match node with
  | some n => nodeName n == "parsererror"
  | none => false

/-- `findDOMParserError(node)`: the `xmldom` parser reports syntax problems
through a `parsererror` node placed as the first child or first grandchild;
return its text, or `none` when parsing succeeded. -/
def findDOMParserError (node : DOMNode) : Option String :=
  let child := (childNodes node).head?
  let grandchild := child.bind (fun c => (childNodes c).head?)
  let errorNode :=
    if isErrorNode child then child
    else if isErrorNode grandchild then grandchild
    else none
  errorNode.map textContent

/-- A class map: capitalized tag names to component functions. -/
abbrev ClassMap := List (String × ComponentFn)

/-- Class-map lookup (`classMap[name]`), with rightmost-wins object
semantics. -/
def lookupCM (classMap : ClassMap) (name : String) : Option ComponentFn :=
  jsRecGet classMap name

/-- The `DocumentFragment` default component: forwards its rendered
children unchanged. -/
def DocumentFragment : ComponentFn :=
  fun props => jsGet props ("children")

/-- The `DocumentType` default component. -/
def DocumentType : ComponentFn :=
  fun props => .str ("<!doctype " ++ jsTemplate (jsGet props ("name")) ++ ">")

/-- The `ProcessingInstruction` default component. -/
def ProcessingInstruction : ComponentFn :=
  fun props =>
    .str ("<!" ++ jsTemplate (jsGet props ("target")) ++ " "
      ++ jsTemplate (jsGet props ("data")) ++ ">")

/-- `defaultClassMap`: the built-in components. -/
def defaultClassMap : ClassMap :=
  [(("DocumentFragment"), DocumentFragment),
   (("DocumentType"), DocumentType),
   (("ProcessingInstruction"), ProcessingInstruction)]

/-- Look up the name slot a built-in transform stores, mirroring the JS
property access `classMap.DocumentType` (and `classMap.ProcessingInstruction`):
the found component, or the JS `undefined` when the entry is absent. -/
def classMapGetName (classMap : ClassMap) (name : String) : Name :=
  match lookupCM classMap name with
  | some f => .component f
  | none => .jsUndefined

/-- `transformAttributes(attributes)`: transform each attribute value
through `transformText`, keeping attribute order. -/
def transformAttributes (attributes : List (String × String)) : List (String × Transformed) :=
  attributes.map (fun p => (p.1, transformText p.2))

/-- `transformDocumentType(node, classMap)`. -/
def transformDocumentType (name : String) (classMap : ClassMap) : Data :=
  .node (classMapGetName classMap ("DocumentType")) [(("name"), .datum (.str name))] []

/-- `transformProcessingInstruction(node, classMap)`. -/
def transformProcessingInstruction (target data : String) (classMap : ClassMap) : Data :=
  .node (classMapGetName classMap ("ProcessingInstruction"))
    [(("data"), .datum (.str data)), (("target"), .datum (.str target))] []

/-- `localName[0] === localName[0].toUpperCase()`: the capitalization test
that discriminates components from plain elements.  (`localName` is never
empty for a parsed element; the empty case is given the vacuous value the
total model needs.) -/
def isClassName (localName : String) : Bool :=
  match localName.data with
  | [] => true
  | c :: _ => c.toUpper == c

/-- The resolution-error message `Couldn\x27t find definition for "..".`
thrown for an unresolved capitalized tag name. -/
def resolutionErrorMessage (localName : String) : String :=
  "Couldn\x27t find definition for \"" ++ localName ++ "\"."

mutual

/-- `transformNode(node, classMap)`: text nodes go through `transformText`;
processing instructions and document types map to their built-in
components; an element resolves its name (a capitalized local name must be
found in the class map or, failing that, among the ambient global bindings,
else the resolution error is thrown: `globalMap` models the ambient
`global` object) and recursively transforms attributes and children. -/
def transformNode (node : DOMNode) (classMap : ClassMap) (globalMap : ClassMap) :
    Except String Transformed :=
  match node with
  | .text textVal => .ok (transformText textVal)
  | .processingInstruction target data =>
    .ok (.datum (transformProcessingInstruction target data classMap))
  | .documentType name =>
    .ok (.datum (transformDocumentType name classMap))
  | .element localName attributes children =>
    let nameData : Name :=
      if isClassName localName then
        match lookupCM classMap localName with
        | some f => .component f
        | none =>
          match lookupCM globalMap localName with
          | some f => .component f
          | none => .jsUndefined
      else
        .tag localName
    match nameData with
    | .jsUndefined => .error (resolutionErrorMessage localName)
    | _ =>
      let attributeData := transformAttributes attributes
      match transformNodes children classMap globalMap with
      | .error e => .error e
      | .ok childrenData => .ok (.datum (.node nameData attributeData childrenData))

/-- `transformNodes(nodes, classMap)`: transform each node; the result of a
text node is spliced into the list with `Array.concat` (an array result
contributes its elements, a scalar result contributes itself), other
results are pushed.  Only text nodes ever transform to arrays, so the two
operations coincide on the remaining kinds. -/
def transformNodes (nodes : List DOMNode) (classMap : ClassMap) (globalMap : ClassMap) :
    Except String (List Data) :=
  match nodes with
  | [] => .ok []
  | n :: rest =>
    match transformNode n classMap globalMap with
    | .error e => .error e
    | .ok t =>
      match transformNodes rest classMap globalMap with
      | .error e => .error e
      | .ok restData =>
        match t with
        | .datum d => .ok (d :: restData)
        | .seqr ds => .ok (ds ++ restData)

end

/-! ### `parseJSX`, `parse` and the cache -/

/-- The wrapper string handed to the external parser: the trimmed JSX
wrapped in an implicit `DocumentFragment` element. -/
def wrapString (jsx : String) : String :=
  "<DocumentFragment>" ++ jsTrim jsx ++ "</DocumentFragment>"

/-- `Object.assign({}, defaultClassMap, classMap)`: the built-in defaults
overlaid by the caller-supplied class map. -/
def extendedClassMap (classMap : ClassMap) : ClassMap :=
  objAssign defaultClassMap classMap

/-- `parseJSX(jsx, classMap)`: trim, wrap in the implicit
`DocumentFragment`, hand to the external parser (`domParse w` stands for
`domParser.parseFromString(w, "text/xml").firstChild`), propagate a parser
error, unwrap the wrapper when it has exactly one child, and transform.
`globalMap` models the ambient `global` object consulted as a fallback for
capitalized names. -/
def parseJSX (domParse : String → DOMNode) (jsx : String)
    (classMap : ClassMap) (globalMap : ClassMap) : Except String Transformed :=
  let trimmed := jsTrim jsx
  let wrapped := "<DocumentFragment>" ++ trimmed ++ "</DocumentFragment>"
  let extended := extendedClassMap classMap
  let wrapperNode := domParse wrapped
  match findDOMParserError wrapperNode with
  | some error => .error error
  | none =>
    let node :=
      if (childNodes wrapperNode).length == 1 then
        (childNodes wrapperNode).headD wrapperNode
      else
        wrapperNode
    transformNode node extended globalMap

/-- The marker-interspersed concatenation of the template literal segments:
every segment except the last is followed by `[[[index]]]`. -/
def joinWithMarkersAux (i len : Nat) : List String → String
| [] => ""
| s :: rest =>
  s ++ (if i < len - 1 then "[[[" ++ toString i ++ "]]]" else "")
    ++ joinWithMarkersAux (i + 1) len rest

/-- `strings.map((string, index) => string + marker).join(\x27\x27)`. -/
def joinWithMarkers (strings : List String) : String :=
  joinWithMarkersAux 0 strings.length strings

/-- `parse(strings, classMap)`: join the literal segments with markers and
parse the resulting JSX. -/
def parse (domParse : String → DOMNode) (strings : List String)
    (classMap : ClassMap) (globalMap : ClassMap) : Except String Transformed :=
  parseJSX domParse (joinWithMarkers strings) classMap globalMap

/-- A template cache: the `WeakMap` keyed by the identity of the template
literal segment array, modelled by a numeric identity token per call site. -/
abbrev Cache := List (Nat × Transformed)

/-- `cache.get(strings)`. -/
def cacheGet (cache : Cache) (key : Nat) : Option Transformed :=
  (cache.find? (fun p => p.1 == key)).map (fun p => p.2)

/-- `cache.set(strings, data)`. -/
def cacheSet (cache : Cache) (key : Nat) (data : Transformed) : Cache :=
  (key, data) :: cache

/-- Whether a cached parse result is falsy in JS (`!data`): the number `0`
and the empty string are the falsy positional-tree values. -/
def isFalsyTransformed : Transformed → Bool
| .datum (.idx n) => n == 0
| .datum (.str s) => s.isEmpty
| _ => false

/-- `parseAndCache(strings, classMap, cache)`: serve a cached (truthy)
entry; otherwise parse and, when the parse succeeds, store the result.  A
thrown parse error propagates before `cache.set` runs, so the cache is
returned unchanged in that case.  `key` is the identity of `strings`. -/
def parseAndCache (domParse : String → DOMNode) (key : Nat) (strings : List String)
    (classMap : ClassMap) (globalMap : ClassMap) (cache : Cache) :
    Except String Transformed × Cache :=
  let reparse : Except String Transformed × Cache :=
    match parse domParse strings classMap globalMap with
    | .error e => (.error e, cache)
    | .ok data => (.ok data, cacheSet cache key data)
  match cacheGet cache key with
  | some data => if isFalsyTransformed data then reparse else (.ok data, cache)
  | none => reparse

/-! ### General lemmas about the embedding -/

/-- `renderList` is the in-order map of `render` over the children: each
child is rendered independently and the results keep document order. -/
theorem renderList_eq_map (cs : List Data) (subs : List JSVal) (R : Renderers) :
    renderList cs subs R = cs.map (fun c => render c subs R) := by
  induction cs with
  | nil => simp [renderList]
  | cons c rest ih => simp [renderList, ih]

/-- Rightmost-wins lookup on an appended property list: a binding of the
right part overrides any same-named binding of the left part. -/
theorem jsRecGet_append {α : Type} (a b : List (String × α)) (k : String) :
    jsRecGet (a ++ b) k =
      match jsRecGet b k with
      | some v => some v
      | none => jsRecGet a k := by
  have key : ∀ (l : List (String × α)) (init : Option α),
      l.foldl (fun acc p => if p.1 == k then some p.2 else acc) init =
        match l.foldl (fun acc p => if p.1 == k then some p.2 else acc) none with
        | some v => some v
        | none => init := by
    intro l
    induction l with
    | nil => intro init; rfl
    | cons p rest ih =>
      intro init
      simp only [List.foldl_cons]
      by_cases hp : p.1 == k
      · rw [if_pos hp, if_pos hp, ih (some p.2)]
        cases rest.foldl (fun acc q => if q.1 == k then some q.2 else acc) none <;> rfl
      · rw [if_neg hp, if_neg hp, ih init]
  unfold jsRecGet
  rw [List.foldl_append, key b]

/-- The `children` property of the props object built by `renderComponent`
is the rendered-children value just assigned. -/
theorem jsGet_children_of_assign (attributes : Props) (children : JSVal) :
    jsGet (objAssign attributes [(("children"), children)]) ("children") = children := by
  unfold jsGet objAssign
  rw [jsRecGet_append]
  rfl

/-! ### Claim theorems -/

/-- C1: `renderChildren` renders each child independently in document order
(`renderList` is the in-order map of `render`); when no rendered child is a
promise, `renderers.children` is invoked immediately on the list of
results; when at least one rendered child is a promise, the result is
itself a promise (the children group becomes asynchronous) equal to
`Promise.all(rendered).then(renderers.children)`, and — whenever the
combiner returns synchronously — that promise resolves at the maximum of
the children resolution times (the concurrent, not sequential, wait) with
the combiner applied to the settled results arranged by original child
position. -/
theorem claim_C1_children_rendering (cs : List Data) (subs : List JSVal) (R : Renderers) :
    renderList cs subs R = cs.map (fun c => render c subs R) ∧
    ((cs.map (fun c => render c subs R)).any isPromise = false →
      renderChildren cs subs R = R.children (cs.map (fun c => render c subs R))) ∧
    ((cs.map (fun c => render c subs R)).any isPromise = true →
      isPromise (renderChildren cs subs R) = true ∧
      renderChildren cs subs R = promiseAllThen (cs.map (fun c => render c subs R)) R.children) ∧
    ((cs.map (fun c => render c subs R)).any isPromise = true →
      isPromise (R.children ((cs.map (fun c => render c subs R)).map settledValue)) = false →
      renderChildren cs subs R =
        .promise (maxResolveTime (cs.map (fun c => render c subs R)))
          (R.children ((cs.map (fun c => render c subs R)).map settledValue))) := by
  have hmap := renderList_eq_map cs subs R
  refine ⟨hmap, ?_, ?_, ?_⟩
  · intro hsync
    simp [renderChildren, renderChildrenFromRendered, hmap, hsync]
  · intro hasync
    constructor
    · simp only [renderChildren, renderChildrenFromRendered, hmap, hasync, if_true]
      unfold promiseAllThen
      split <;> rfl
    · simp [renderChildren, renderChildrenFromRendered, hmap, hasync]
  · intro hasync hns
    simp only [renderChildren, renderChildrenFromRendered, hmap, hasync, if_true]
    unfold promiseAllThen
    cases hrc : R.children ((cs.map (fun c => render c subs R)).map settledValue) with
    | promise u w => rw [hrc] at hns; simp [isPromise] at hns
    | str s => simp [hrc]
    | obj o => simp [hrc]
    | undefined => simp [hrc]

/-- C1 witness: two document-ordered substitution promises resolving at
times 200 and 100; the children group is one promise resolving at
`max 200 100 = 200` whose settled value joins the settled results in
document order (`"ab"`, not completion order `"ba"`). -/
theorem claim_C1_witness :
    renderChildren [Data.idx 0, Data.idx 1]
      [JSVal.promise 200 (.str ("a")), JSVal.promise 100 (.str ("b"))] textRenderers
      = .promise 200 (.str ("ab")) := by
  have h := (claim_C1_children_rendering [Data.idx 0, Data.idx 1]
      [JSVal.promise 200 (.str ("a")), JSVal.promise 100 (.str ("b"))] textRenderers).2.2.2
    (by simp [render, jsIndex, isPromise, textRenderers, renderValueToText])
    (by simp [render, jsIndex, settledValue, textRenderers, renderValueToText,
      renderChildrenToText, jsJoin, joinCoerce, jsTemplate, isPromise])
  rw [h]
  simp [render, jsIndex, settledValue, maxResolveTime, resolveTime, textRenderers,
    renderValueToText, renderChildrenToText, jsJoin, joinCoerce, jsTemplate]

/-- A render-operations triple whose `value` is not the identity, used to
observe whether `renderOps.value` is invoked on literal strings. -/
def taggingRenderers : Renderers :=
  { value := fun _ => .str ("X")
    element := renderElementToText
    children := renderChildrenToText }

/-- C2 counterexample: with render operations whose `value` maps everything
to `"X"`, a literal-string node renders to `"X"` rather than passing
through as-is — so `renderOps.value` IS invoked on literal strings,
refuting the claim that a literal string bypasses `value`. -/
theorem claim_C2_counterexample :
    render (Data.str ("hello")) [] taggingRenderers = .str ("X") ∧
    JSVal.str ("X") ≠ JSVal.str ("hello") := by
  constructor
  · simp [render, taggingRenderers]
  · decide

/-- C2 amended: `render` invokes `renderOps.value` on a literal-string node
with the string itself, and on an integer-index node with the substitution
at that index; under the text renderer `value` is the identity, so a
literal string passes through unchanged there. -/
theorem claim_C2_amended (s : String) (n : Nat) (subs : List JSVal) (R : Renderers) :
    render (.str s) subs R = R.value (.str s) ∧
    render (.idx n) subs R = R.value (jsIndex subs n) ∧
    renderToText (.str s) subs = .str s := by
  refine ⟨?_, ?_, ?_⟩ <;>
    simp [render, renderToText, textRenderers, renderValueToText]

/-- The generic child nodes of the `div` of the repository test
`flattens nodes with no substitutions`, from the template
`<div><img src="foo.jpg"/><i>Hello, </i><b>` / `</b></div>`: two static
subtrees (`img`, `i`) followed by a `b` element holding the substitution
marker. -/
def flatteningTestNodes : List DOMNode :=
  [.element ("img") [(("src"), ("foo.jpg"))] [],
   .element ("i") [] [.text ("Hello, ")],
   .element ("b") [] [.text ("[[[0]]]")]]

/-- C3: evaluating the Tree Transformer on the failing input of the
repository test `flattens nodes with no substitutions`: the static sibling
subtrees `img` and `i` remain separate structured nodes in the children
list; no flattening into the single literal string child
`<img src="foo.jpg"><i>Hello, </i>` expected by the test (and asserted by
the claim) takes place anywhere in `transformNodes`. -/
theorem claim_C3_static_subtrees_not_flattened :
    transformNodes flatteningTestNodes (extendedClassMap []) [] =
      .ok [Data.node (.tag ("img")) [(("src"), .datum (.str ("foo.jpg")))] [],
           Data.node (.tag ("i")) [] [.str ("Hello, ")],
           Data.node (.tag ("b")) [] [.idx 0]] := rfl

/-- C4: a text whose whitespace-collapsed form splits into exactly one
marker token with empty surrounding literals decodes to the bare integer
index, not a one-element sequence; and every sequence `transformText`
returns has had its empty literal segments removed. -/
theorem claim_C4_bare_index_and_pruning :
    (∀ (text ds : String),
      splitMarkers (collapseWhitespace text) = [.lit (""), .capture ds, .lit ("")] →
      transformText text = .datum (.idx (jsParseInt ds))) ∧
    (∀ (text : String) (l : List Data) (s : String),
      transformText text = .seqr l → Data.str s ∈ l → s ≠ "") := by
  constructor
  · intro text ds h
    unfold transformText
    dsimp only
    rw [h]
    simp
  · intro text l s h hmem
    unfold transformText at h
    dsimp only at h
    split at h
    · exact absurd h (by simp)
    · split at h
      · exact absurd h (by simp)
      · rename_i heq
        obtain rfl : _ = l := (Transformed.seqr.injEq .. ▸ h :)
        have hp := List.of_mem_filter hmem
        simp only [decide_eq_true_eq] at hp
        intro hs
        subst hs
        simp at hp

/-- C4 witness: `[[[5]]]` decodes to the bare index `5`; and the decoded
sequence for `a[[[0]]]` contains the nonempty literal `a` (the boundary
empty literal was pruned). -/
theorem claim_C4_witness :
    transformText ("[[[5]]]") = .datum (.idx 5) ∧ ("a" : String) ≠ "" := by
  constructor
  · exact claim_C4_bare_index_and_pruning.1 ("[[[5]]]") ("5") (by decide)
  · exact claim_C4_bare_index_and_pruning.2 ("a[[[0]]]")
      [Data.str ("a"), Data.idx 0] ("a") rfl (by simp)

/-- C5: an element whose local name passes the capitalization test and is
found neither in the supplied class map extended with the built-in
defaults nor among the ambient global bindings makes the transform fail at
once with the resolution error naming the unresolved identifier — whatever
its attributes and children are. -/
theorem claim_C5_resolution_error (localName : String) (attrs : List (String × String))
    (children : List DOMNode) (classMap globalMap : ClassMap)
    (h1 : isClassName localName = true)
    (h2 : lookupCM (extendedClassMap classMap) localName = none)
    (h3 : lookupCM globalMap localName = none) :
    transformNode (.element localName attrs children) (extendedClassMap classMap) globalMap
      = .error ("Couldn\x27t find definition for \"" ++ localName ++ "\".") := by
  simp [transformNode, h1, h2, h3, resolutionErrorMessage]

/-- C5 witness: the capitalized tag `Foo` with no class-map or global
entry (and nonempty attributes and children) raises the resolution error
naming `Foo`. -/
theorem claim_C5_witness :
    transformNode (.element ("Foo") [(("x"), ("y"))] [.text ("z")]) (extendedClassMap []) []
      = .error ("Couldn\x27t find definition for \"Foo\".") := by
  have h := claim_C5_resolution_error ("Foo") [(("x"), ("y"))] [.text ("z")] [] []
    (by decide) rfl rfl
  simpa using h

/-- C6 counterexample: an integer-index node out of range of the supplied
substitution array does NOT raise any error — the render path has no error
channel at all — and the render completes normally, silently producing
output from the undefined value (which the text children combiner coerces
to the empty string). -/
theorem claim_C6_counterexample :
    renderToText (.node (.tag ("div")) [] [.idx 5]) [] = .str ("<div></div>") := by
  simp [renderToText, render, renderList, resolveAttributes, renderChildrenFromRendered,
    isPromise, jsIndex, textRenderers, renderValueToText, renderChildrenToText,
    renderElementToText, jsJoin, joinCoerce, jsTemplate, attributeText, List.getD]

/-- C6 amended: an out-of-range integer-index node is not guarded — the
out-of-bounds access yields the undefined value, `renderOps.value` is
invoked on it, and rendering returns normally. -/
theorem claim_C6_amended (n : Nat) (subs : List JSVal) (R : Renderers)
    (h : subs.length ≤ n) :
    render (.idx n) subs R = R.value .undefined := by
  have hidx : jsIndex subs n = .undefined := by
    unfold jsIndex
    exact List.getD_eq_default _ _ h
  simp [render, hidx]

/-- C6 witness: index 5 against an empty substitution array renders (under
the text renderers) to the undefined value, with no error raised. -/
theorem claim_C6_witness :
    render (.idx 5) [] textRenderers = JSVal.undefined := by
  have h := claim_C6_amended 5 [] textRenderers (by decide)
  simpa [textRenderers, renderValueToText] using h

/-- C7: when the literal-segment identity is not in the cache and the
parse fails, `parseAndCache` propagates the error and returns the cache
unchanged — no entry is stored for the failing identity, so a later call
with the same identity still misses and re-runs the full parse. -/
theorem claim_C7_failed_parse_not_cached
    (domParse : String → DOMNode) (key : Nat) (strings : List String)
    (classMap globalMap : ClassMap) (cache : Cache) (e : String)
    (hmiss : cacheGet cache key = none)
    (hfail : parse domParse strings classMap globalMap = .error e) :
    parseAndCache domParse key strings classMap globalMap cache = (.error e, cache) := by
  simp [parseAndCache, hmiss, hfail]

/-- The wrapper node an external parse of `<Foo/>` produces: the implicit
fragment wrapper around the unresolvable capitalized element. -/
def unresolvedWrapper : DOMNode :=
  .element ("DocumentFragment") [] [.element ("Foo") [] []]

/-- C7 witness: a failing parse (unresolved component `Foo`) against an
empty cache propagates the resolution error and leaves the cache empty. -/
theorem claim_C7_witness :
    parseAndCache (fun _ => unresolvedWrapper) 7 [("<Foo/>")] [] [] []
      = (.error ("Couldn\x27t find definition for \"Foo\"."), []) :=
  claim_C7_failed_parse_not_cached (fun _ => unresolvedWrapper) 7 [("<Foo/>")] [] [] []
    ("Couldn\x27t find definition for \"Foo\".") rfl rfl

/-- C8 counterexample: a single-index attribute whose substitution is a
non-string object resolves to that object unchanged — not to a string —
refuting the claim that every attribute resolves to a definite string
value.  (The repository test passing an object through a component
attribute relies on exactly this behavior.) -/
theorem claim_C8_counterexample :
    resolveAttributes [(("name"), .datum (.idx 0))] [JSVal.obj 7]
      = [(("name"), JSVal.obj 7)] ∧
    isStringVal (JSVal.obj 7) = false := by
  constructor
  · simp [resolveAttributes, render, jsIndex, textRenderers, renderValueToText]
  · rfl

/-- C8 amended: `resolveAttributes` maps each attribute name, in order, to
a synchronously computed value: a multi-part (sequence) attribute value
becomes the string concatenation, in order, of its parts rendered through
the text-rendering path; a single literal becomes that literal string; a
single index becomes the substitution value unchanged, which need not be a
string. -/
theorem claim_C8_amended :
    (∀ (attrs : List (String × Transformed)) (subs : List JSVal),
      (resolveAttributes attrs subs).map Prod.fst = attrs.map Prod.fst) ∧
    (∀ (name : String) (items : List Data) (rest : List (String × Transformed))
        (subs : List JSVal),
      resolveAttributes ((name, .seqr items) :: rest) subs
        = (name, JSVal.str (jsJoin (renderTextList items subs))) :: resolveAttributes rest subs) ∧
    (∀ (name s : String) (rest : List (String × Transformed)) (subs : List JSVal),
      resolveAttributes ((name, .datum (.str s)) :: rest) subs
        = (name, JSVal.str s) :: resolveAttributes rest subs) ∧
    (∀ (name : String) (n : Nat) (rest : List (String × Transformed)) (subs : List JSVal),
      resolveAttributes ((name, .datum (.idx n)) :: rest) subs
        = (name, jsIndex subs n) :: resolveAttributes rest subs) := by
  refine ⟨?_, ?_, ?_, ?_⟩
  · intro attrs subs
    induction attrs with
    | nil => simp [resolveAttributes]
    | cons p rest ih =>
      cases p with
      | mk name value => cases value <;> simp [resolveAttributes, ih]
  · intro name items rest subs
    simp [resolveAttributes]
  · intro name s rest subs
    simp [resolveAttributes, render, textRenderers, renderValueToText]
  · intro name n rest subs
    simp [resolveAttributes, render, textRenderers, renderValueToText]

/-- C9: parsing hands the external parser the markup wrapped in the
implicit `DocumentFragment` element; a wrapper with exactly one child is
unwrapped (the root is the transform of that child); a wrapper with any
other number of children itself becomes the root, a structured node whose
name is the `DocumentFragment` component; and that component forwards its
rendered children unchanged. -/
theorem claim_C9_fragment_wrapper :
    (∀ (domParse : String → DOMNode) (jsx : String) (classMap globalMap : ClassMap)
        (child : DOMNode),
      findDOMParserError (domParse (wrapString jsx)) = none →
      childNodes (domParse (wrapString jsx)) = [child] →
      parseJSX domParse jsx classMap globalMap
        = transformNode child (extendedClassMap classMap) globalMap) ∧
    (∀ (domParse : String → DOMNode) (jsx : String) (classMap globalMap : ClassMap)
        (ns : List DOMNode) (ds : List Data),
      domParse (wrapString jsx) = .element ("DocumentFragment") [] ns →
      findDOMParserError (.element ("DocumentFragment") [] ns) = none →
      ns.length ≠ 1 →
      lookupCM classMap ("DocumentFragment") = none →
      transformNodes ns (extendedClassMap classMap) globalMap = .ok ds →
      parseJSX domParse jsx classMap globalMap
        = .ok (.datum (.node (.component DocumentFragment) [] ds))) ∧
    (∀ (attributes : Props) (children : JSVal),
      renderComponent DocumentFragment attributes children = children) := by
  refine ⟨?_, ?_, ?_⟩
  · intro domParse jsx classMap globalMap child hErr hChild
    unfold wrapString at hErr hChild
    unfold parseJSX
    dsimp only
    rw [hErr, hChild]
    simp
  · intro domParse jsx classMap globalMap ns ds hdp hErr hLen hcm htn
    unfold wrapString at hdp
    unfold parseJSX
    dsimp only
    rw [hdp, hErr]
    have hLenB : ((childNodes (.element ("DocumentFragment") [] ns)).length == 1) = false := by
      simpa [childNodes] using hLen
    have hlook : lookupCM (extendedClassMap classMap) ("DocumentFragment")
        = some DocumentFragment := by
      unfold lookupCM extendedClassMap objAssign
      rw [jsRecGet_append]
      unfold lookupCM at hcm
      rw [hcm]
      rfl
    have hic : isClassName ("DocumentFragment") = true := by decide
    simp [hLenB, transformNode, hlook, htn, transformAttributes, hic]
  · intro attributes children
    unfold renderComponent DocumentFragment
    exact jsGet_children_of_assign attributes children

/-- The wrapper node an external parse of the two-root template
`<b></b><i></i>` produces: the implicit fragment wrapper with two element
children. -/
def twoRootWrapper : DOMNode :=
  .element ("DocumentFragment") [] [.element ("b") [] [], .element ("i") [] []]

/-- C9 witness: a two-root template keeps the fragment wrapper as the root
of the positional tree, with both roots as its children; and the
`DocumentFragment` component forwards a concrete rendered-children value
unchanged. -/
theorem claim_C9_witness :
    parseJSX (fun _ => twoRootWrapper) ("<b></b><i></i>") [] []
      = .ok (.datum (.node (.component DocumentFragment) []
          [Data.node (.tag ("b")) [] [], Data.node (.tag ("i")) [] []])) ∧
    renderComponent DocumentFragment [(("a"), JSVal.str ("v"))] (.str ("ch")) = .str ("ch") := by
  constructor
  · exact claim_C9_fragment_wrapper.2.1 (fun _ => twoRootWrapper) ("<b></b><i></i>") [] []
      [.element ("b") [] [], .element ("i") [] []]
      [Data.node (.tag ("b")) [] [], Data.node (.tag ("i")) [] []]
      rfl rfl (by decide) rfl rfl
  · exact claim_C9_fragment_wrapper.2.2 [(("a"), JSVal.str ("v"))] (.str ("ch"))

/-- C10: the class map used by the transform is the built-in defaults
overlaid by the caller-supplied map — a caller-supplied entry wins over a
same-named built-in, and a name the caller does not supply falls back to
the defaults; and inside `transformNode` a capitalized name found in the
class map resolves there with the ambient global bindings never consulted
(the result is the class-map component, whatever `globalMap` holds), while
a class-map miss resolves against the ambient global bindings. -/
theorem claim_C10_classmap_overlay :
    (∀ (classMap : ClassMap) (name : String) (f : ComponentFn),
      lookupCM classMap name = some f →
      lookupCM (extendedClassMap classMap) name = some f) ∧
    (∀ (classMap : ClassMap) (name : String),
      lookupCM classMap name = none →
      lookupCM (extendedClassMap classMap) name = lookupCM defaultClassMap name) ∧
    (∀ (name : String) (attrs : List (String × String)) (cm gm : ClassMap) (f : ComponentFn),
      isClassName name = true →
      lookupCM cm name = some f →
      transformNode (.element name attrs []) cm gm
        = .ok (.datum (.node (.component f) (transformAttributes attrs) []))) ∧
    (∀ (name : String) (attrs : List (String × String)) (cm gm : ClassMap) (g : ComponentFn),
      isClassName name = true →
      lookupCM cm name = none →
      lookupCM gm name = some g →
      transformNode (.element name attrs []) cm gm
        = .ok (.datum (.node (.component g) (transformAttributes attrs) []))) := by
  refine ⟨?_, ?_, ?_, ?_⟩
  · intro classMap name f h
    unfold lookupCM extendedClassMap objAssign
    rw [jsRecGet_append]
    unfold lookupCM at h
    rw [h]
  · intro classMap name h
    unfold lookupCM extendedClassMap objAssign
    rw [jsRecGet_append]
    unfold lookupCM at h
    rw [h]
  · intro name attrs cm gm f h1 h2
    simp [transformNode, h1, h2, transformNodes]
  · intro name attrs cm gm g h1 h2 h3
    simp [transformNode, h1, h2, h3, transformNodes]

/-- A probe component distinguishable from every built-in component. -/
def probeComponent : ComponentFn :=
  fun _ => JSVal.obj 1

/-- C10 witness: a caller-supplied `DocumentFragment` entry overrides the
built-in of the same name in the extended class map; and a capitalized tag
absent from the class map resolves against a same-named ambient global
binding. -/
theorem claim_C10_witness :
    lookupCM (extendedClassMap [(("DocumentFragment"), probeComponent)]) ("DocumentFragment")
      = some probeComponent ∧
    transformNode (.element ("Foo") [] []) [] [(("Foo"), probeComponent)]
      = .ok (.datum (.node (.component probeComponent) [] [])) := by
  constructor
  · exact claim_C10_classmap_overlay.1 [(("DocumentFragment"), probeComponent)]
      ("DocumentFragment") probeComponent rfl
  · exact claim_C10_classmap_overlay.2.2.2 ("Foo") [] [] [(("Foo"), probeComponent)]
      probeComponent (by decide) rfl rfl

end LitJSX
